import Mathlib

/-!
Verification development for the zenoh-net Session runtime
(src/zenoh/src/net/session.rs) and the TLS accept loop
(src/io/zenoh-links/zenoh-link-tls/src/unicast.rs).

The Rust code is shallowly embedded: the `SessionState` struct and the
operations acting on it become pure Lean functions (explicit state passing).
HashMaps become association lists with replace-on-insert semantics; the
outbound `Primitives` calls performed by an operation are returned as an
explicit list of `Prim` values; samples/queries/replies pushed into a
subscriber or reply channel are returned as explicit delivery lists tagged
with the id of the registration whose channel received them.  The `u8`
replier countdown of the query tracker is embedded with wrapping (mod 256)
decrement, exactly as an unchecked `-= 1` behaves.  The key-intersection
routine `rname::intersect` and the `queryable::ALL_KINDS` constant live in
the `zenoh-protocol` crate, outside the sources under study; they are
passed as parameters (`intersect`, `allKinds`) and all results hold for
every instantiation.
-/

namespace ZenohSpec

/-- Byte buffer payload (`RBuf`). -/
abbrev RBuf := List Nat

/-- Opaque peer identifier (`PeerId`). -/
abbrev PeerId := Nat

/-- Opaque data metadata (`DataInfo`); no routing decision inspects it. -/
abbrev DataInfo := Nat

/-- Resource key (`zenoh_protocol::core::ResKey`), as matched on by
`session.rs`: a literal name, a numerical resource id, or an id with a
string suffix. -/
inductive ResKey where
  | RName : String → ResKey
  | RId : Nat → ResKey
  | RIdWithSuffix : Nat → String → ResKey
deriving DecidableEq

/-- Error kind raised by resource resolution (`ZErrorKind::UnkownResourceId`,
spelled as in the source). -/
inductive ZErrorKind where
  | unkownResourceId : Nat → ZErrorKind
deriving DecidableEq

/-- Data sample (`Sample`): resolved name, payload, optional metadata. -/
structure Sample where
  res_name : String
  payload : RBuf
  data_info : Option DataInfo
deriving DecidableEq

/-- Query reply (`Reply`). -/
structure Reply where
  data : Sample
  source_kind : Nat
  replier_id : PeerId
deriving DecidableEq

/-- Query message delivered to a queryable (`Query`, minus its reply
channel, which is modelled by tagging deliveries with the queryable id). -/
structure QueryMsg where
  res_name : String
  predicate : String
deriving DecidableEq

/-- Registered stream subscriber (`SubscriberState`): local id, declared
key, resolved key name.  The reception channel is modelled by tagging
deliveries with `id`. -/
structure SubscriberState where
  id : Nat
  reskey : ResKey
  resname : String
deriving DecidableEq

/-- Registered callback subscriber (`CallbackSubscriberState`). -/
structure CallbackSubscriberState where
  id : Nat
  reskey : ResKey
  resname : String
deriving DecidableEq

/-- Registered publisher (`PublisherState`). -/
structure PublisherState where
  id : Nat
  reskey : ResKey
deriving DecidableEq

/-- Registered queryable (`QueryableState`): id, key, kind bitmask. -/
structure QueryableState where
  id : Nat
  reskey : ResKey
  kind : Nat
deriving DecidableEq

/-- Association-list lookup, modelling `HashMap::get`. -/
def alookup {α : Type} : List (Nat × α) → Nat → Option α
  | [], _ => none
  | (k, v) :: rest, key => if k = key then some v else alookup rest key

/-- Association-list removal, modelling `HashMap::remove`. -/
def aerase {α : Type} (m : List (Nat × α)) (k : Nat) : List (Nat × α) :=
  m.filter fun p => decide (p.1 ≠ k)

/-- Association-list insert with replacement, modelling `HashMap::insert`. -/
def ainsert {α : Type} (m : List (Nat × α)) (k : Nat) (v : α) : List (Nat × α) :=
  (k, v) :: aerase m k

/-- The session state (`SessionState`), embedding every field relevant to
routing: the id counters, the two resource tables, the four declaration
registries, and the query tracker (`queries: qid → u8 countdown`; the
per-query reply sender is modelled by the delivery lists that operations
return). -/
structure SessionState where
  rid_counter : Nat
  qid_counter : Nat
  decl_id_counter : Nat
  local_resources : List (Nat × String)
  remote_resources : List (Nat × String)
  publishers : List (Nat × PublisherState)
  subscribers : List (Nat × SubscriberState)
  callback_subscribers : List (Nat × CallbackSubscriberState)
  queryables : List (Nat × QueryableState)
  queries : List (Nat × Nat)
deriving DecidableEq

/-- Fresh state (`SessionState::new`): the resource-id counter starts at 1
because 0 is reserved for NO_RESOURCE. -/
def SessionState.new : SessionState :=
  ⟨1, 0, 0, [], [], [], [], [], [], []⟩

/-- Resolution of a local resource id (`SessionState::localid_to_resname`). -/
def localid_to_resname (s : SessionState) (rid : Nat) : Except ZErrorKind String :=
  match alookup s.local_resources rid with
  | some name => .ok name
  | none => .error (.unkownResourceId rid)

/-- Resolution of a remote resource id with fallback to the local table
(`SessionState::rid_to_resname`). -/
def rid_to_resname (s : SessionState) (rid : Nat) : Except ZErrorKind String :=
  match alookup s.remote_resources rid with
  | some name => .ok name
  | none => localid_to_resname s rid

/-- Remote-direction key resolution (`SessionState::remotekey_to_resname`). -/
def remotekey_to_resname (s : SessionState) (reskey : ResKey) : Except ZErrorKind String :=
  match reskey with
  | .RName name => .ok name
  | .RId rid => rid_to_resname s rid
  | .RIdWithSuffix rid suffix =>
      match rid_to_resname s rid with
      | .ok name => .ok (name ++ suffix)
      | .error e => .error e

/-- Local-direction key resolution (`SessionState::localkey_to_resname`). -/
def localkey_to_resname (s : SessionState) (reskey : ResKey) : Except ZErrorKind String :=
  match reskey with
  | .RName name => .ok name
  | .RId rid => localid_to_resname s rid
  | .RIdWithSuffix rid suffix =>
      match localid_to_resname s rid with
      | .ok name => .ok (name ++ suffix)
      | .error e => .error e

/-- Direction-dispatching key resolution (`SessionState::reskey_to_resname`). -/
def reskey_to_resname (s : SessionState) (reskey : ResKey) (loc : Bool) :
    Except ZErrorKind String :=
  if loc then localkey_to_resname s reskey else remotekey_to_resname s reskey

/-- Outbound `Primitives` call emitted by a Session operation. -/
inductive Prim where
  | resource : Nat → ResKey → Prim
  | forget_resource : Nat → Prim
  | publisher : ResKey → Prim
  | forget_publisher : ResKey → Prim
  | subscriber : ResKey → Prim
  | forget_subscriber : ResKey → Prim
  | queryable : ResKey → Prim
  | forget_queryable : ResKey → Prim
  | data : ResKey → RBuf → Prim
  | query : ResKey → String → Nat → Prim
deriving DecidableEq

/-- Application-side handle for an undeclaration: the local id and the
ResKey recorded in the corresponding `*State` at declaration time. -/
structure SubHandle where
  id : Nat
  reskey : ResKey
deriving DecidableEq

/-- Modulus of the resource-id counter: `rid_counter` is an `AtomicUsize`
(64-bit) and `fetch_add(1)` wraps on overflow — the source marks rollover
as unmanaged (`@TODO: manage rollover and uniqueness`). -/
def USIZE_MOD : Nat := 2 ^ 64

/-- Declare a resource (`Session::declare_resource`): allocate the next rid
with the wrapping `fetch_add` before resolving; on resolution failure the
counter stays bumped and nothing is inserted or emitted. -/
def declare_resource (s : SessionState) (resource : ResKey) :
    SessionState × List Prim × Except ZErrorKind Nat :=
  let rid := s.rid_counter
  let s1 := { s with rid_counter := (s.rid_counter + 1) % USIZE_MOD }
  match localkey_to_resname s1 resource with
  | .error e => (s1, [], .error e)
  | .ok rname =>
      ({ s1 with local_resources := ainsert s1.local_resources rid rname },
       [Prim.resource rid resource], .ok rid)

/-- Undeclare a resource (`Session::undeclare_resource`). -/
def undeclare_resource (s : SessionState) (rid : Nat) : SessionState × List Prim :=
  ({ s with local_resources := aerase s.local_resources rid },
   [Prim.forget_resource rid])

/-- Declare a publisher (`Session::declare_publisher`); always emits the
outbound `publisher` call. -/
def declare_publisher (s : SessionState) (resource : ResKey) :
    SessionState × List Prim × SubHandle :=
  let id := s.decl_id_counter
  let s1 := { s with decl_id_counter := s.decl_id_counter + 1 }
  ({ s1 with publishers := ainsert s1.publishers id ⟨id, resource⟩ },
   [Prim.publisher resource], ⟨id, resource⟩)

/-- Undeclare a publisher (`Session::undeclare_publisher`): remove, then
emit `forget_publisher` only if no remaining publisher shares the ResKey. -/
def undeclare_publisher (s : SessionState) (h : SubHandle) : SessionState × List Prim :=
  let s1 := { s with publishers := aerase s.publishers h.id }
  if !(s1.publishers.any fun p => p.2.reskey == h.reskey) then
    (s1, [Prim.forget_publisher h.reskey])
  else
    (s1, [])

/-- Declare a stream subscriber (`Session::declare_subscriber`): allocate
the id, resolve the key locally (failure leaves only the bumped counter),
insert, and emit the outbound `subscriber` call unconditionally. -/
def declare_subscriber (s : SessionState) (resource : ResKey) :
    SessionState × List Prim × Except ZErrorKind SubHandle :=
  let id := s.decl_id_counter
  let s1 := { s with decl_id_counter := s.decl_id_counter + 1 }
  match localkey_to_resname s1 resource with
  | .error e => (s1, [], .error e)
  | .ok resname =>
      ({ s1 with subscribers := ainsert s1.subscribers id ⟨id, resource, resname⟩ },
       [Prim.subscriber resource], .ok ⟨id, resource⟩)

/-- Declare a callback subscriber (`Session::declare_callback_subscriber`);
the data handler itself is opaque, deliveries to it are tagged with `id`. -/
def declare_callback_subscriber (s : SessionState) (resource : ResKey) :
    SessionState × List Prim × Except ZErrorKind SubHandle :=
  let id := s.decl_id_counter
  let s1 := { s with decl_id_counter := s.decl_id_counter + 1 }
  match localkey_to_resname s1 resource with
  | .error e => (s1, [], .error e)
  | .ok resname =>
      ({ s1 with callback_subscribers :=
          ainsert s1.callback_subscribers id ⟨id, resource, resname⟩ },
       [Prim.subscriber resource], .ok ⟨id, resource⟩)

/-- Undeclare a stream subscriber (`Session::undeclare_subscriber`): remove
by id, then emit `forget_subscriber` only if no remaining callback or
stream subscriber shares the handle's ResKey. -/
def undeclare_subscriber (s : SessionState) (h : SubHandle) : SessionState × List Prim :=
  let s1 := { s with subscribers := aerase s.subscribers h.id }
  if !(s1.callback_subscribers.any fun p => p.2.reskey == h.reskey) &&
     !(s1.subscribers.any fun p => p.2.reskey == h.reskey) then
    (s1, [Prim.forget_subscriber h.reskey])
  else
    (s1, [])

/-- Undeclare a callback subscriber
(`Session::undeclare_callback_subscriber`): same last-one-out check. -/
def undeclare_callback_subscriber (s : SessionState) (h : SubHandle) :
    SessionState × List Prim :=
  let s1 := { s with callback_subscribers := aerase s.callback_subscribers h.id }
  if !(s1.callback_subscribers.any fun p => p.2.reskey == h.reskey) &&
     !(s1.subscribers.any fun p => p.2.reskey == h.reskey) then
    (s1, [Prim.forget_subscriber h.reskey])
  else
    (s1, [])

/-- Declare a queryable (`Session::declare_queryable`); no resolution is
performed at declaration time. -/
def declare_queryable (s : SessionState) (resource : ResKey) (kind : Nat) :
    SessionState × List Prim × SubHandle :=
  let id := s.decl_id_counter
  let s1 := { s with decl_id_counter := s.decl_id_counter + 1 }
  ({ s1 with queryables := ainsert s1.queryables id ⟨id, resource, kind⟩ },
   [Prim.queryable resource], ⟨id, resource⟩)

/-- Undeclare a queryable (`Session::undeclare_queryable`). -/
def undeclare_queryable (s : SessionState) (h : SubHandle) : SessionState × List Prim :=
  let s1 := { s with queryables := aerase s.queryables h.id }
  if !(s1.queryables.any fun p => p.2.reskey == h.reskey) then
    (s1, [Prim.forget_queryable h.reskey])
  else
    (s1, [])

/-- Data fan-out (`Session::handle_data`): resolve in the direction given
by `loc`; on failure log and drop (no delivery, and the function never
mutates the session state nor returns an error).  On success deliver one
`Sample` to every callback subscriber and every stream subscriber whose
resolved name intersects, returning the two tagged delivery lists. -/
def handle_data (intersect : String → String → Bool) (s : SessionState) (loc : Bool)
    (reskey : ResKey) (info : Option DataInfo) (payload : RBuf) :
    List (Nat × Sample) × List (Nat × Sample) :=
  match reskey_to_resname s reskey loc with
  | .ok resname =>
      ((s.callback_subscribers.filter fun p => intersect p.2.resname resname).map
         (fun p => (p.1, ⟨resname, payload, info⟩)),
       (s.subscribers.filter fun p => intersect p.2.resname resname).map
         (fun p => (p.1, ⟨resname, payload, info⟩)))
  | .error _ => ([], [])

/-- Queryable kind compatibility, exactly the boolean test in
`Session::handle_query`; `allKinds` stands for `queryable::ALL_KINDS`. -/
def kind_matches (allKinds qkind tkind : Nat) : Bool :=
  (qkind == allKinds || tkind == allKinds) || (qkind &&& tkind != 0)

/-- Query fan-out (`Session::handle_query`): resolve the query key in the
direction given by `loc`; on failure log and drop.  Select the queryables
whose locally-resolved key name intersects the query name and whose kind
is compatible with the target kind (queryables whose own key fails to
resolve are skipped); deliver one `QueryMsg` to each, tagged with the
queryable id and kind. -/
def handle_query (intersect : String → String → Bool) (allKinds : Nat)
    (s : SessionState) (loc : Bool) (reskey : ResKey) (predicate : String)
    (target_kind : Nat) : List (Nat × Nat × QueryMsg) :=
  match reskey_to_resname s reskey loc with
  | .ok resname =>
      ((s.queryables.filter fun p =>
          match localkey_to_resname s p.2.reskey with
          | .ok qablname =>
              intersect qablname resname && kind_matches allKinds p.2.kind target_kind
          | .error _ => false).map
        (fun p => (p.1, p.2.kind, ⟨resname, predicate⟩)))
  | .error _ => []

/-- Data write (`Session::write`): emit the outbound `data` call and route
the sample through `handle_data` with `local = true`. -/
def Session.write (intersect : String → String → Bool) (s : SessionState)
    (resource : ResKey) (payload : RBuf) :
    List Prim × (List (Nat × Sample) × List (Nat × Sample)) :=
  ([Prim.data resource payload], handle_data intersect s true resource none payload)

/-- Query issue (`Session::query`): allocate the next qid, insert the
tracker entry with replier countdown 2, emit the outbound `query` call and
fan the query out locally through `handle_query`.  Returns the new state,
the qid, the emitted primitives and the local query deliveries. -/
def Session.query (intersect : String → String → Bool) (allKinds : Nat)
    (s : SessionState) (resource : ResKey) (predicate : String)
    (target_kind : Nat) :
    SessionState × Nat × List Prim × List (Nat × Nat × QueryMsg) :=
  let qid := s.qid_counter
  let s1 := { s with qid_counter := s.qid_counter + 1,
                     queries := ainsert s.queries qid 2 }
  (s1, qid, [Prim.query resource predicate qid],
   handle_query intersect allKinds s1 true resource predicate target_kind)

/-- Inbound reply handler (`Session::reply_data` in the `Primitives`
impl): an unknown qid is warned about and dropped; an unresolvable reskey
is logged and dropped; otherwise the built `Reply` is pushed into the
channel of query `qid` (returned as `some`).  The session state is never
mutated. -/
def reply_data (s : SessionState) (qid : Nat) (source_kind : Nat)
    (replier_id : PeerId) (reskey : ResKey) (data_info : Option DataInfo)
    (payload : RBuf) : Option Reply :=
  match alookup s.queries qid with
  | none => none
  | some _ =>
      match remotekey_to_resname s reskey with
      | .error _ => none
      | .ok res_name => some ⟨⟨res_name, payload, data_info⟩, source_kind, replier_id⟩

/-- Inbound reply terminator (`Session::reply_final` in the `Primitives`
impl): an unknown qid is warned about and dropped; otherwise the `u8`
countdown is decremented with wrapping (the unchecked `-= 1`) and the
entry is removed exactly when the countdown reaches zero (which drops the
reply sender and closes the caller's reply stream). -/
def reply_final (s : SessionState) (qid : Nat) : SessionState :=
  match alookup s.queries qid with
  | some n =>
      let m := (n + 255) % 256
      if m = 0 then { s with queries := aerase s.queries qid }
      else { s with queries := ainsert s.queries qid m }
  | none => s

/-- Inbound resource declaration (`Session::resource` in the `Primitives`
impl): resolve the declared key in the remote direction and install it in
the remote table; on failure log and drop. -/
def recv_resource (s : SessionState) (rid : Nat) (reskey : ResKey) : SessionState :=
  match remotekey_to_resname s reskey with
  | .ok name => { s with remote_resources := ainsert s.remote_resources rid name }
  | .error _ => s

/-- An API or inbound event acting on a session. -/
inductive Event where
  | declareResource : ResKey → Event
  | undeclareResource : Nat → Event
  | declarePublisher : ResKey → Event
  | undeclarePublisher : Nat → ResKey → Event
  | declareSubscriber : ResKey → Event
  | undeclareSubscriber : Nat → ResKey → Event
  | declareCallbackSubscriber : ResKey → Event
  | undeclareCallbackSubscriber : Nat → ResKey → Event
  | declareQueryable : ResKey → Nat → Event
  | undeclareQueryable : Nat → ResKey → Event
  | writeData : ResKey → RBuf → Event
  | sessionQuery : ResKey → String → Nat → Event
  | recvResource : Nat → ResKey → Event
  | recvData : ResKey → Option DataInfo → RBuf → Event
  | recvQuery : ResKey → String → Nat → Event
  | recvReplyData : Nat → Nat → PeerId → ResKey → Option DataInfo → RBuf → Event
  | recvReplyFinal : Nat → Event
deriving DecidableEq

/-- One step of the session: apply the operation named by the event and
collect the outbound primitives it emits.  Inbound data, query and
reply-data handling never mutate the state (their deliveries are local). -/
def stepP (intersect : String → String → Bool) (allKinds : Nat)
    (s : SessionState) (e : Event) : SessionState × List Prim :=
  match e with
  | .declareResource r => ((declare_resource s r).1, (declare_resource s r).2.1)
  | .undeclareResource rid => undeclare_resource s rid
  | .declarePublisher r => ((declare_publisher s r).1, (declare_publisher s r).2.1)
  | .undeclarePublisher i r => undeclare_publisher s ⟨i, r⟩
  | .declareSubscriber r => ((declare_subscriber s r).1, (declare_subscriber s r).2.1)
  | .undeclareSubscriber i r => undeclare_subscriber s ⟨i, r⟩
  | .declareCallbackSubscriber r =>
      ((declare_callback_subscriber s r).1, (declare_callback_subscriber s r).2.1)
  | .undeclareCallbackSubscriber i r => undeclare_callback_subscriber s ⟨i, r⟩
  | .declareQueryable r k => ((declare_queryable s r k).1, (declare_queryable s r k).2.1)
  | .undeclareQueryable i r => undeclare_queryable s ⟨i, r⟩
  | .writeData r pl => (s, (Session.write intersect s r pl).1)
  | .sessionQuery r pred tk =>
      ((Session.query intersect allKinds s r pred tk).1,
       (Session.query intersect allKinds s r pred tk).2.2.1)
  | .recvResource rid r => (recv_resource s rid r, [])
  | .recvData _ _ _ => (s, [])
  | .recvQuery _ _ _ => (s, [])
  | .recvReplyData _ _ _ _ _ _ => (s, [])
  | .recvReplyFinal qid => (reply_final s qid, [])

/-- Run a list of events, collecting the emitted outbound primitives. -/
def runPrims (intersect : String → String → Bool) (allKinds : Nat)
    (s : SessionState) : List Event → SessionState × List Prim
  | [] => (s, [])
  | e :: es =>
      let (s1, out) := stepP intersect allKinds s e
      let (s2, out2) := runPrims intersect allKinds s1 es
      (s2, out ++ out2)

/-- An inbound event addressed to one outstanding query. -/
inductive ReplyEvent where
  | rdata : Nat → PeerId → ResKey → Option DataInfo → RBuf → ReplyEvent
  | rfinal : ReplyEvent
deriving DecidableEq

/-- Process a stream of reply events for query `qid`, collecting the
`Reply` values delivered into the caller's reply channel. -/
def processReplies (s : SessionState) (qid : Nat) :
    List ReplyEvent → SessionState × List Reply
  | [] => (s, [])
  | .rdata sk rep rk di pl :: es =>
      let r := reply_data s qid sk rep rk di pl
      let (s2, rs) := processReplies s qid es
      (s2, (match r with | some x => [x] | none => []) ++ rs)
  | .rfinal :: es => processReplies (reply_final s qid) qid es

/-- Contents of one inbound `reply_data` message. -/
structure RData where
  source_kind : Nat
  replier_id : PeerId
  reskey : ResKey
  data_info : Option DataInfo
  payload : RBuf
deriving DecidableEq

/-- View an `RData` as a reply event. -/
def RData.toEvent (d : RData) : ReplyEvent :=
  .rdata d.source_kind d.replier_id d.reskey d.data_info d.payload

/-- Per-iteration outcome of the TLS `accept_task` loop: the `active` flag
read false, the stop signal won the race, `socket.accept()` errored, the
TLS handshake errored, or a connection was accepted. -/
inductive LoopEvent where
  | deactivated
  | stopSignal
  | acceptErr
  | tlsAcceptErr
  | newLink : Nat → LoopEvent
deriving DecidableEq

/-- Observable action of the accept loop: a throttling sleep (argument in
microseconds) or a new link handed to the transport manager. -/
inductive TraceItem where
  | sleepThrottle : Nat → TraceItem
  | linkUp : Nat → TraceItem
deriving DecidableEq

/-- The TLS `accept_task` loop (zenoh-link-tls/src/unicast.rs), run over a
prefix of per-iteration outcomes.  `throttle` stands for the configurable
`TLS_ACCEPT_THROTTLE_TIME` (defined in the crate root, outside the studied
sources).  Returns the emitted trace and whether the loop has exited; an
exhausted outcome list means the loop is still blocked in `accept`. -/
def accept_task (throttle : Nat) : List LoopEvent → List TraceItem × Bool
  | [] => ([], false)
  | .deactivated :: _ => ([], true)
  | .stopSignal :: _ => ([], true)
  | .acceptErr :: rest =>
      let (t, ex) := accept_task throttle rest
      (.sleepThrottle throttle :: t, ex)
  | .tlsAcceptErr :: rest => accept_task throttle rest
  | .newLink l :: rest =>
      let (t, ex) := accept_task throttle rest
      (.linkUp l :: t, ex)

/-- The task spawned by `LinkManagerUnicastTls::new_listener`: run the
accept loop, and when (and only when) it returns, remove the listener's
entry from the listener registry. -/
def new_listener_task (throttle : Nat) (events : List LoopEvent)
    (listeners : List Nat) (addr : Nat) : List TraceItem × List Nat :=
  let (t, ex) := accept_task throttle events
  (t, if ex then listeners.filter (fun a => decide (a ≠ addr)) else listeners)

/-- The subscriber registrations produced by `n` consecutive
`declare_subscriber` calls on key `K` (resolved name `r`) starting at decl
id `c`, newest first — the shape the registry takes after that run. -/
def subsNew (c n : Nat) (K : ResKey) (r : String) : List (Nat × SubscriberState) :=
  match n with
  | 0 => []
  | m + 1 => subsNew (c + 1) m K r ++ [(c, ⟨c, K, r⟩)]

/-- Run `declare_resource` over a list of literal resource names,
collecting the returned resource ids. -/
def declareAll (s : SessionState) : List String → SessionState × List Nat
  | [] => (s, [])
  | n :: ns =>
      let t := declare_resource s (.RName n)
      let rest := declareAll t.1 ns
      (rest.1, (match t.2.2 with | .ok rid => [rid] | .error _ => []) ++ rest.2)

/-- State shape after one `declare_subscriber(K)` whose key resolved to
`r`, when the fresh id did not collide with an existing registration. -/
def declStep (s : SessionState) (K : ResKey) (r : String) : SessionState :=
  { s with decl_id_counter := s.decl_id_counter + 1,
           subscribers := (s.decl_id_counter, ⟨s.decl_id_counter, K, r⟩) :: s.subscribers }

/-- State shape after `n` consecutive `declare_subscriber(K)` calls. -/
def declTotal (s : SessionState) (K : ResKey) (r : String) (n : Nat) : SessionState :=
  { s with decl_id_counter := s.decl_id_counter + n,
           subscribers := subsNew s.decl_id_counter n K r ++ s.subscribers }

/-- State shape after removing the subscriber registration with id `i`. -/
def subErase (s : SessionState) (i : Nat) : SessionState :=
  { s with subscribers := aerase s.subscribers i }

theorem alookup_ainsert_self {α : Type} (m : List (Nat × α)) (k : Nat) (v : α) :
    alookup (ainsert m k v) k = some v := by
  simp [ainsert, alookup]

theorem alookup_aerase_self {α : Type} (m : List (Nat × α)) (k : Nat) :
    alookup (aerase m k) k = none := by
  induction m with
  | nil => rfl
  | cons a t ih =>
      by_cases h : a.1 = k
      · simpa [aerase, List.filter_cons, h] using ih
      · simpa [aerase, List.filter_cons, h, alookup] using ih

theorem aerase_cons_eq {α : Type} (a : Nat × α) (t : List (Nat × α)) (k : Nat)
    (h : a.1 = k) : aerase (a :: t) k = aerase t k := by
  simp [aerase, List.filter_cons, h]

theorem aerase_cons_ne {α : Type} (a : Nat × α) (t : List (Nat × α)) (k : Nat)
    (h : a.1 ≠ k) : aerase (a :: t) k = a :: aerase t k := by
  simp [aerase, List.filter_cons, h]

theorem alookup_aerase_ne {α : Type} (m : List (Nat × α)) (k k2 : Nat) (h : k2 ≠ k) :
    alookup (aerase m k) k2 = alookup m k2 := by
  induction m with
  | nil => rfl
  | cons a t ih =>
      by_cases ha : a.1 = k
      · have hne : ¬ (a.1 = k2) := by omega
        rw [aerase_cons_eq a t k ha, ih]
        simp [alookup, hne]
      · rw [aerase_cons_ne a t k ha]
        by_cases hb : a.1 = k2 <;> simp [alookup, hb, ih]

theorem alookup_ainsert_ne {α : Type} (m : List (Nat × α)) (k k2 : Nat) (v : α)
    (h : k2 ≠ k) : alookup (ainsert m k v) k2 = alookup m k2 := by
  rw [ainsert, alookup]
  simp only [show ¬ (k = k2) by omega, if_neg, not_false_iff]
  exact alookup_aerase_ne m k k2 h

theorem aerase_of_keys_ne {α : Type} (m : List (Nat × α)) (k : Nat)
    (h : ∀ p ∈ m, p.1 ≠ k) : aerase m k = m := by
  induction m with
  | nil => rfl
  | cons a t ih =>
      have ha : a.1 ≠ k := h a (by simp)
      have ht : ∀ p ∈ t, p.1 ≠ k := fun p hp => h p (by simp [hp])
      rw [aerase_cons_ne a t k ha, ih ht]

theorem localkey_congr (s t : SessionState)
    (h : s.local_resources = t.local_resources) (k : ResKey) :
    localkey_to_resname s k = localkey_to_resname t k := by
  cases k <;> simp [localkey_to_resname, localid_to_resname, h]

theorem remotekey_congr (s t : SessionState)
    (hl : s.local_resources = t.local_resources)
    (hr : s.remote_resources = t.remote_resources) (k : ResKey) :
    remotekey_to_resname s k = remotekey_to_resname t k := by
  cases k <;>
    simp [remotekey_to_resname, rid_to_resname, localid_to_resname, hl, hr]

/-- Claim C4: resolution of a ResKey obeys: `RName s` resolves to `s`;
`RId i` in the remote direction consults the remote table with fallback to
the local table, and in the local direction only the local table;
`RIdWithSuffix i suf` resolves the id and appends the suffix; resolution
fails, with `UnkownResourceId`, exactly when the id is missing from every
consulted table. -/
theorem reskey_resolution_rules (s : SessionState) (i : Nat) (suf : String) (b : Bool) :
    (∀ n : String, reskey_to_resname s (.RName n) b = .ok n)
    ∧ (∀ nm : String, reskey_to_resname s (.RId i) false = .ok nm ↔
        alookup s.remote_resources i = some nm ∨
          (alookup s.remote_resources i = none ∧ alookup s.local_resources i = some nm))
    ∧ (reskey_to_resname s (.RId i) false = .error (.unkownResourceId i) ↔
        alookup s.remote_resources i = none ∧ alookup s.local_resources i = none)
    ∧ (∀ nm : String, reskey_to_resname s (.RId i) true = .ok nm ↔
        alookup s.local_resources i = some nm)
    ∧ (reskey_to_resname s (.RId i) true = .error (.unkownResourceId i) ↔
        alookup s.local_resources i = none)
    ∧ reskey_to_resname s (.RIdWithSuffix i suf) b =
        Except.map (fun nm => nm ++ suf) (reskey_to_resname s (.RId i) b)
    := by
  refine ⟨?_, ?_, ?_, ?_, ?_, ?_⟩
  · intro n
    cases b <;>
      simp [reskey_to_resname, remotekey_to_resname, localkey_to_resname]
  · intro nm
    rcases hro : alookup s.remote_resources i with _ | v <;>
      rcases hlo : alookup s.local_resources i with _ | w <;>
        simp [reskey_to_resname, remotekey_to_resname, rid_to_resname,
          localid_to_resname, hro, hlo]
  · rcases hro : alookup s.remote_resources i with _ | v <;>
      rcases hlo : alookup s.local_resources i with _ | w <;>
        simp [reskey_to_resname, remotekey_to_resname, rid_to_resname,
          localid_to_resname, hro, hlo]
  · intro nm
    rcases hlo : alookup s.local_resources i with _ | w <;>
      simp [reskey_to_resname, localkey_to_resname, localid_to_resname, hlo]
  · rcases hlo : alookup s.local_resources i with _ | w <;>
      simp [reskey_to_resname, localkey_to_resname, localid_to_resname, hlo]
  · cases b <;>
      rcases hro : alookup s.remote_resources i with _ | v <;>
        rcases hlo : alookup s.local_resources i with _ | w <;>
          simp [reskey_to_resname, remotekey_to_resname, localkey_to_resname,
            rid_to_resname, localid_to_resname, hro, hlo, Except.map]

/-- Claim C9: an accept error never terminates the TLS accept loop — it
throttles for `TLS_ACCEPT_THROTTLE_TIME` microseconds and retries, so a
later valid connection is still surfaced; the loop exits exactly on the
stop signal or on `active = false`; and the listener registry entry is
removed exactly when the loop exits. -/
theorem accept_loop_resilience (throttle : Nat) (pre post events : List LoopEvent)
    (l addr : Nat) (listeners : List Nat) :
    (accept_task throttle (.acceptErr :: post) =
       (.sleepThrottle throttle :: (accept_task throttle post).1,
        (accept_task throttle post).2))
    ∧ ((∀ e ∈ pre, e ≠ LoopEvent.deactivated ∧ e ≠ LoopEvent.stopSignal) →
        TraceItem.linkUp l ∈
          (accept_task throttle
            (pre ++ LoopEvent.acceptErr :: LoopEvent.newLink l :: post)).1)
    ∧ ((accept_task throttle events).2 = true ↔
        ∃ e ∈ events, e = LoopEvent.deactivated ∨ e = LoopEvent.stopSignal)
    ∧ ((accept_task throttle events).2 = true →
        addr ∉ (new_listener_task throttle events listeners addr).2)
    ∧ ((accept_task throttle events).2 = false →
        (new_listener_task throttle events listeners addr).2 = listeners)
    := by
  refine ⟨rfl, ?_, ?_, ?_, ?_⟩
  · intro hcl
    induction pre with
    | nil => simp [accept_task]
    | cons e rest ih =>
        have he := hcl e (by simp)
        have hrest : ∀ e ∈ rest, e ≠ LoopEvent.deactivated ∧ e ≠ LoopEvent.stopSignal :=
          fun x hx => hcl x (by simp [hx])
        cases e with
        | deactivated => exact absurd rfl he.1
        | stopSignal => exact absurd rfl he.2
        | acceptErr => simpa [accept_task] using ih hrest
        | tlsAcceptErr => simpa [accept_task] using ih hrest
        | newLink m => simpa [accept_task] using Or.inr (ih hrest)
  · induction events with
    | nil => simp [accept_task]
    | cons e rest ih =>
        cases e <;> simp [accept_task, ih]
  · intro hex
    simp only [new_listener_task, hex, if_pos]
    intro hmem
    have := List.of_mem_filter hmem
    simp at this
  · intro hex
    simp [new_listener_task, hex]

/-- Claim C8: incoming data or queries whose reskey cannot be resolved are
dropped with no delivery (and, the embedding of `handle_data` and
`handle_query` being read-only on the session state with no error channel
in their types, with no state change and no error surfaced); `reply_data`
and `reply_final` carrying a qid absent from the query tracker drop the
message and leave the state unchanged. -/
theorem unknown_inputs_dropped (intersect : String → String → Bool) (allKinds : Nat)
    (s : SessionState) (reskey reskey2 : ResKey) (info : Option DataInfo)
    (payload : RBuf) (predicate : String) (tkind qid sk : Nat) (rep : PeerId)
    (e : ZErrorKind)
    (herr : reskey_to_resname s reskey false = .error e)
    (hqid : alookup s.queries qid = none) :
    handle_data intersect s false reskey info payload = ([], [])
    ∧ handle_query intersect allKinds s false reskey predicate tkind = []
    ∧ reply_data s qid sk rep reskey2 info payload = none
    ∧ reply_final s qid = s := by
  refine ⟨?_, ?_, ?_, ?_⟩
  · simp [handle_data, herr]
  · simp [handle_query, herr]
  · simp [reply_data, hqid]
  · simp [reply_final, hqid]

/-- Witness for `unknown_inputs_dropped`: in a fresh session, `RId 7` is
unresolvable and qid 0 untracked, and all four drops happen. -/
theorem unknown_inputs_dropped_witness :
    (reskey_to_resname SessionState.new (.RId 7) false =
        .error (.unkownResourceId 7))
    ∧ (alookup SessionState.new.queries 0 = none)
    ∧ (handle_data (fun a b => a == b) SessionState.new false (.RId 7) none [] = ([], [])
       ∧ handle_query (fun a b => a == b) 0 SessionState.new false (.RId 7) "" 0 = []
       ∧ reply_data SessionState.new 0 0 0 (.RName "/x") none [] = none
       ∧ reply_final SessionState.new 0 = SessionState.new) :=
  ⟨rfl, rfl,
   unknown_inputs_dropped (fun a b => a == b) 0 SessionState.new (.RId 7)
     (.RName "/x") none [] "" 0 0 0 0 (.unkownResourceId 7) rfl rfl⟩

theorem declare_resource_rname (s : SessionState) (n : String) :
    declare_resource s (.RName n) =
      ({ s with rid_counter := (s.rid_counter + 1) % USIZE_MOD,
                local_resources := ainsert s.local_resources s.rid_counter n },
       [Prim.resource s.rid_counter (.RName n)], .ok s.rid_counter) := rfl

theorem declareAll_cons (s : SessionState) (n : String) (ns : List String) :
    declareAll s (n :: ns) =
      ((declareAll (declare_resource s (.RName n)).1 ns).1,
       s.rid_counter :: (declareAll (declare_resource s (.RName n)).1 ns).2) := rfl

theorem declareAll_ids (names : List String) : ∀ s : SessionState,
    s.rid_counter + names.length < USIZE_MOD →
    (declareAll s names).2 = List.range' s.rid_counter names.length
    ∧ (declareAll s names).1.rid_counter = s.rid_counter + names.length := by
  induction names with
  | nil => intro s _; simp [declareAll]
  | cons n ns ih =>
      intro s hbound
      have hcnt : (declare_resource s (.RName n)).1.rid_counter = s.rid_counter + 1 := by
        show (s.rid_counter + 1) % USIZE_MOD = s.rid_counter + 1
        apply Nat.mod_eq_of_lt
        simp only [List.length_cons] at hbound
        omega
      have hbound2 : (declare_resource s (.RName n)).1.rid_counter + ns.length <
          USIZE_MOD := by
        rw [hcnt]
        simp only [List.length_cons] at hbound
        omega
      obtain ⟨h1, h2⟩ := ih (declare_resource s (.RName n)).1 hbound2
      rw [hcnt] at h1 h2
      refine ⟨?_, ?_⟩
      · rw [declareAll_cons]
        simp only [h1, List.length_cons, List.range'_succ]
      · rw [declareAll_cons]
        simp only [h2, List.length_cons]
        omega

theorem declareAll_lookup (names : List String) : ∀ (s : SessionState) (k : Nat),
    s.rid_counter + names.length < USIZE_MOD →
    alookup (declareAll s names).1.local_resources k =
      if s.rid_counter ≤ k ∧ k < s.rid_counter + names.length
      then some (names.getD (k - s.rid_counter) "")
      else alookup s.local_resources k := by
  induction names with
  | nil =>
      intro s k _
      have hno : ¬ (s.rid_counter ≤ k ∧ k < s.rid_counter + ([] : List String).length) := by
        simp only [List.length_nil]
        omega
      rw [if_neg hno]
      rfl
  | cons n ns ih =>
      intro s k hbound
      rw [declareAll_cons]
      have hcnt : (declare_resource s (.RName n)).1.rid_counter = s.rid_counter + 1 := by
        show (s.rid_counter + 1) % USIZE_MOD = s.rid_counter + 1
        apply Nat.mod_eq_of_lt
        simp only [List.length_cons] at hbound
        omega
      have hbound2 : (declare_resource s (.RName n)).1.rid_counter + ns.length <
          USIZE_MOD := by
        rw [hcnt]
        simp only [List.length_cons] at hbound
        omega
      have hmain := ih (declare_resource s (.RName n)).1 k hbound2
      have hloc : (declare_resource s (.RName n)).1.local_resources =
          ainsert s.local_resources s.rid_counter n := rfl
      rw [hcnt, hloc] at hmain
      rw [hmain]
      by_cases hin : s.rid_counter + 1 ≤ k ∧ k < s.rid_counter + 1 + ns.length
      · have hout : s.rid_counter ≤ k ∧ k < s.rid_counter + (n :: ns).length := by
          simp only [List.length_cons]; omega
        simp only [hin, if_pos, hout]
        have hk : k - s.rid_counter = (k - (s.rid_counter + 1)) + 1 := by omega
        rw [hk]
        rfl
      · rw [if_neg hin]
        by_cases hk : k = s.rid_counter
        · subst hk
          have hout : s.rid_counter ≤ s.rid_counter ∧
              s.rid_counter < s.rid_counter + (n :: ns).length := by
            simp only [List.length_cons]; omega
          rw [if_pos hout, alookup_ainsert_self]
          simp
        · have hout : ¬ (s.rid_counter ≤ k ∧ k < s.rid_counter + (n :: ns).length) := by
            simp only [List.length_cons]
            omega
          rw [if_neg hout]
          exact alookup_ainsert_ne s.local_resources s.rid_counter k n (by omega)

/-- Claim C7 (amended): a sequence of `declare_resource(name_i)` calls
during which the wrapping usize rid counter does not roll over returns ids
that are exactly the consecutive range starting at the current counter —
hence pairwise distinct, strictly increasing, and never 0 (the reserved
NO_RESOURCE, since the counter starts at 1) — and `RId id_i` resolves
locally to `name_i`, keeps doing so after undeclaring a different id, and
fails with `UnkownResourceId` once `undeclare_resource(id_i)` ran. -/
theorem declare_resource_sequence (s : SessionState) (names : List String)
    (hc : 1 ≤ s.rid_counter)
    (hbound : s.rid_counter + names.length < USIZE_MOD) :
    ((declareAll s names).2 = List.range' s.rid_counter names.length)
    ∧ (declareAll s names).2.Nodup
    ∧ List.Pairwise (· < ·) (declareAll s names).2
    ∧ 0 ∉ (declareAll s names).2
    ∧ (∀ j, j < names.length →
        reskey_to_resname (declareAll s names).1 (.RId (s.rid_counter + j)) true =
          .ok (names.getD j ""))
    ∧ (∀ j k, j < names.length → k < names.length → j ≠ k →
        reskey_to_resname (undeclare_resource (declareAll s names).1
            (s.rid_counter + k)).1 (.RId (s.rid_counter + j)) true =
          .ok (names.getD j ""))
    ∧ (∀ j, j < names.length →
        reskey_to_resname (undeclare_resource (declareAll s names).1
            (s.rid_counter + j)).1 (.RId (s.rid_counter + j)) true =
          .error (.unkownResourceId (s.rid_counter + j))) := by
  obtain ⟨hids, _⟩ := declareAll_ids names s hbound
  have hlook : ∀ k : Nat, alookup (declareAll s names).1.local_resources k =
      if s.rid_counter ≤ k ∧ k < s.rid_counter + names.length
      then some (names.getD (k - s.rid_counter) "")
      else alookup s.local_resources k :=
    fun k => declareAll_lookup names s k hbound
  refine ⟨hids, ?_, ?_, ?_, ?_, ?_, ?_⟩
  · rw [hids]; exact List.nodup_range' _ _
  · rw [hids]; exact List.pairwise_lt_range' _ _ 1 Nat.one_pos
  · rw [hids]
    intro hmem
    have := List.mem_range'_1.mp hmem
    omega
  · intro j hj
    have hin : s.rid_counter ≤ s.rid_counter + j ∧
        s.rid_counter + j < s.rid_counter + names.length := by omega
    have heq := hlook (s.rid_counter + j)
    rw [if_pos hin, Nat.add_sub_cancel_left] at heq
    simp [reskey_to_resname, localkey_to_resname, localid_to_resname, heq]
  · intro j k hj hk hjk
    have hin : s.rid_counter ≤ s.rid_counter + j ∧
        s.rid_counter + j < s.rid_counter + names.length := by omega
    have heq := hlook (s.rid_counter + j)
    rw [if_pos hin, Nat.add_sub_cancel_left] at heq
    have her : alookup (aerase (declareAll s names).1.local_resources
        (s.rid_counter + k)) (s.rid_counter + j) = some (names.getD j "") := by
      rw [alookup_aerase_ne _ _ _ (by omega), heq]
    simp [reskey_to_resname, localkey_to_resname, localid_to_resname,
      undeclare_resource, her]
  · intro j hj
    have her : alookup (aerase (declareAll s names).1.local_resources
        (s.rid_counter + j)) (s.rid_counter + j) = none := alookup_aerase_self _ _
    simp [reskey_to_resname, localkey_to_resname, localid_to_resname,
      undeclare_resource, her]

/-- Witness for `declare_resource_sequence`: two declares from a fresh
session return ids 1 and 2, each resolving to its name, with resolution of
id 1 surviving undeclaration of id 2 and dying with its own. -/
theorem declare_resource_sequence_witness :
    (1 ≤ SessionState.new.rid_counter)
    ∧ (SessionState.new.rid_counter + (["/a", "/b"] : List String).length < USIZE_MOD)
    ∧ ((declareAll SessionState.new ["/a", "/b"]).2 = [1, 2]
       ∧ reskey_to_resname (declareAll SessionState.new ["/a", "/b"]).1 (.RId 1) true =
           .ok "/a"
       ∧ reskey_to_resname (undeclare_resource
             (declareAll SessionState.new ["/a", "/b"]).1 2).1 (.RId 1) true = .ok "/a"
       ∧ reskey_to_resname (undeclare_resource
             (declareAll SessionState.new ["/a", "/b"]).1 1).1 (.RId 1) true =
           .error (.unkownResourceId 1)) := by
  have h := declare_resource_sequence SessionState.new ["/a", "/b"] (by decide)
    (by norm_num [USIZE_MOD, SessionState.new])
  refine ⟨by decide, by norm_num [USIZE_MOD, SessionState.new], ?_, ?_, ?_, ?_⟩
  · rw [h.1]; rfl
  · exact h.2.2.2.2.1 0 (by decide)
  · exact h.2.2.2.2.2.1 0 1 (by decide) (by decide) (by decide)
  · exact h.2.2.2.2.2.2 0 (by decide)

/-- Counterexample to claim C7 as stated: at the rollover point of the
wrapping usize rid counter — the state `declare_resource` leaves the
session in once the counter has run up to `usize::MAX`, rollover being
unmanaged per the source's `@TODO` — two declares return the ids
`[usize::MAX, 0]`: not monotonically increasing, and containing the
reserved NO_RESOURCE id 0. -/
theorem declare_resource_rollover :
    ((declareAll { SessionState.new with rid_counter := USIZE_MOD - 1 }
        ["/a", "/b"]).2 = [USIZE_MOD - 1, 0])
    ∧ ¬ List.Pairwise (· < ·)
        (declareAll { SessionState.new with rid_counter := USIZE_MOD - 1 }
          ["/a", "/b"]).2
    ∧ 0 ∈ (declareAll { SessionState.new with rid_counter := USIZE_MOD - 1 }
        ["/a", "/b"]).2 := by
  decide

theorem alookup_some_mem {α : Type} (m : List (Nat × α)) (k : Nat) (v : α)
    (h : alookup m k = some v) : (k, v) ∈ m := by
  induction m with
  | nil => simp [alookup] at h
  | cons a t ih =>
      by_cases ha : a.1 = k
      · obtain ⟨a1, a2⟩ := a
        simp only at ha
        rw [alookup, if_pos ha] at h
        injection h with h2
        subst ha
        subst h2
        exact List.mem_cons_self _ _
      · rw [alookup, if_neg ha] at h
        exact List.mem_cons_of_mem a (ih h)

theorem mem_aerase_mem {α : Type} (m : List (Nat × α)) (k : Nat) (p : Nat × α)
    (h : p ∈ aerase m k) : p ∈ m :=
  List.mem_of_mem_filter h

theorem processReplies_rfinal_twice (s : SessionState) (qid : Nat) :
    processReplies s qid [.rfinal, .rfinal] = (reply_final (reply_final s qid) qid, []) := rfl

theorem processReplies_append (qid : Nat) (l1 l2 : List ReplyEvent) :
    ∀ s : SessionState,
    processReplies s qid (l1 ++ l2) =
      ((processReplies (processReplies s qid l1).1 qid l2).1,
       (processReplies s qid l1).2 ++ (processReplies (processReplies s qid l1).1 qid l2).2) := by
  induction l1 with
  | nil => intro s; simp [processReplies]
  | cons e t ih =>
      intro s
      cases e with
      | rdata sk rep rk di pl =>
          simp only [List.cons_append, processReplies, List.append_eq, ih s,
            List.append_assoc]
      | rfinal =>
          simp only [List.cons_append, processReplies, List.append_eq,
            ih (reply_final s qid)]

theorem processReplies_rdata (qid : Nat) (datas : List RData) : ∀ s : SessionState,
    (alookup s.queries qid).isSome = true →
    (∀ d ∈ datas, ∃ n, remotekey_to_resname s d.reskey = .ok n) →
    (processReplies s qid (datas.map RData.toEvent)).1 = s
    ∧ (processReplies s qid (datas.map RData.toEvent)).2.length = datas.length := by
  induction datas with
  | nil => intro s _ _; exact ⟨rfl, rfl⟩
  | cons d ds ih =>
      intro s hq hres
      obtain ⟨n, hn⟩ := hres d (by simp)
      obtain ⟨c, hc⟩ : ∃ c, alookup s.queries qid = some c := by
        rcases h : alookup s.queries qid with _ | c
        · rw [h] at hq; simp at hq
        · exact ⟨c, rfl⟩
      have hstep : reply_data s qid d.source_kind d.replier_id d.reskey d.data_info
          d.payload = some ⟨⟨n, d.payload, d.data_info⟩, d.source_kind, d.replier_id⟩ := by
        simp [reply_data, hc, hn]
      obtain ⟨ih1, ih2⟩ := ih s hq (fun x hx => hres x (by simp [hx]))
      refine ⟨?_, ?_⟩
      · simpa only [List.map_cons, RData.toEvent, processReplies] using ih1
      · simp only [List.map_cons, RData.toEvent, processReplies, hstep,
          List.singleton_append, List.length_cons, ih2]

/-- Claim C1: `Session::query` creates the tracker entry for the fresh qid
with replier countdown 2; each `reply_final` decrements it, removing the
entry exactly when it reaches zero; hence after M (resolvable) `reply_data`
messages followed by 2 `reply_final`, the caller's reply channel received
exactly M `Reply` values and the tracker entry is gone (which drops the
sender and closes the caller's reply stream). -/
theorem query_reply_lifecycle (intersect : String → String → Bool) (allKinds : Nat)
    (s : SessionState) (resource : ResKey) (predicate : String) (tkind : Nat)
    (datas : List RData)
    (hres : ∀ d ∈ datas, ∃ n, remotekey_to_resname s d.reskey = .ok n) :
    alookup (Session.query intersect allKinds s resource predicate tkind).1.queries
        (Session.query intersect allKinds s resource predicate tkind).2.1 = some 2
    ∧ (processReplies (Session.query intersect allKinds s resource predicate tkind).1
          (Session.query intersect allKinds s resource predicate tkind).2.1
          (datas.map RData.toEvent)).2.length = datas.length
    ∧ alookup (reply_final
          (processReplies (Session.query intersect allKinds s resource predicate tkind).1
            (Session.query intersect allKinds s resource predicate tkind).2.1
            (datas.map RData.toEvent)).1
          (Session.query intersect allKinds s resource predicate tkind).2.1).queries
        (Session.query intersect allKinds s resource predicate tkind).2.1 = some 1
    ∧ (processReplies (Session.query intersect allKinds s resource predicate tkind).1
          (Session.query intersect allKinds s resource predicate tkind).2.1
          (datas.map RData.toEvent ++ [.rfinal, .rfinal])).2
        = (processReplies (Session.query intersect allKinds s resource predicate tkind).1
            (Session.query intersect allKinds s resource predicate tkind).2.1
            (datas.map RData.toEvent)).2
    ∧ alookup (processReplies (Session.query intersect allKinds s resource predicate tkind).1
          (Session.query intersect allKinds s resource predicate tkind).2.1
          (datas.map RData.toEvent ++ [.rfinal, .rfinal])).1.queries
        (Session.query intersect allKinds s resource predicate tkind).2.1 = none := by
  set qid := s.qid_counter with hqid
  have hs1q : (Session.query intersect allKinds s resource predicate tkind).1.queries =
      ainsert s.queries qid 2 := rfl
  have hs1qid : (Session.query intersect allKinds s resource predicate tkind).2.1 = qid := rfl
  have hlook2 : alookup (Session.query intersect allKinds s resource predicate
      tkind).1.queries qid = some 2 := by
    rw [hs1q]; exact alookup_ainsert_self _ _ _
  have hres1 : ∀ d ∈ datas, ∃ n, remotekey_to_resname
      (Session.query intersect allKinds s resource predicate tkind).1 d.reskey = .ok n := by
    intro d hd
    obtain ⟨n, hn⟩ := hres d hd
    refine ⟨n, ?_⟩
    rw [remotekey_congr (Session.query intersect allKinds s resource predicate tkind).1
      s rfl rfl d.reskey]
    exact hn
  obtain ⟨hmid1, hmid2⟩ := processReplies_rdata qid datas
    (Session.query intersect allKinds s resource predicate tkind).1
    (by rw [hlook2]; rfl) hres1
  rw [hs1qid]
  have hrf1 : reply_final (processReplies
      (Session.query intersect allKinds s resource predicate tkind).1 qid
      (datas.map RData.toEvent)).1 qid =
      { (Session.query intersect allKinds s resource predicate tkind).1 with
          queries := ainsert (Session.query intersect allKinds s resource predicate
            tkind).1.queries qid 1 } := by
    rw [hmid1, reply_final, hlook2]
    norm_num
  have hlook1 : alookup (reply_final (processReplies
      (Session.query intersect allKinds s resource predicate tkind).1 qid
      (datas.map RData.toEvent)).1 qid).queries qid = some 1 := by
    rw [hrf1]
    exact alookup_ainsert_self _ _ _
  have happ := processReplies_append qid (datas.map RData.toEvent) [.rfinal, .rfinal]
    (Session.query intersect allKinds s resource predicate tkind).1
  refine ⟨hlook2, hmid2, hlook1, ?_, ?_⟩
  · rw [happ, processReplies_rfinal_twice]
    simp
  · rw [happ, processReplies_rfinal_twice]
    have hrf2 : reply_final (reply_final (processReplies
        (Session.query intersect allKinds s resource predicate tkind).1 qid
        (datas.map RData.toEvent)).1 qid) qid =
        { (Session.query intersect allKinds s resource predicate tkind).1 with
            queries := aerase (ainsert (Session.query intersect allKinds s resource
              predicate tkind).1.queries qid 1) qid } := by
      rw [hrf1, reply_final]
      have : alookup (ainsert (Session.query intersect allKinds s resource predicate
          tkind).1.queries qid 1) qid = some 1 := alookup_ainsert_self _ _ _
      rw [this]
      norm_num
    simp only [hrf2]
    exact alookup_aerase_self _ _

/-- Witness for `query_reply_lifecycle`: one reply_data on a literal key
then two reply_final, from a fresh session. -/
theorem query_reply_lifecycle_witness :
    (∀ d ∈ [RData.mk 0 0 (.RName "/r") none [1]],
        ∃ n, remotekey_to_resname SessionState.new d.reskey = .ok n)
    ∧ (alookup (Session.query (fun a b => a == b) 0 SessionState.new (.RName "/q") "" 0).1.queries
        (Session.query (fun a b => a == b) 0 SessionState.new (.RName "/q") "" 0).2.1 = some 2
      ∧ (processReplies (Session.query (fun a b => a == b) 0 SessionState.new (.RName "/q") "" 0).1
            (Session.query (fun a b => a == b) 0 SessionState.new (.RName "/q") "" 0).2.1
            ([RData.mk 0 0 (.RName "/r") none [1]].map RData.toEvent)).2.length =
          [RData.mk 0 0 (.RName "/r") none [1]].length
      ∧ alookup (reply_final
            (processReplies (Session.query (fun a b => a == b) 0 SessionState.new (.RName "/q") "" 0).1
              (Session.query (fun a b => a == b) 0 SessionState.new (.RName "/q") "" 0).2.1
              ([RData.mk 0 0 (.RName "/r") none [1]].map RData.toEvent)).1
            (Session.query (fun a b => a == b) 0 SessionState.new (.RName "/q") "" 0).2.1).queries
          (Session.query (fun a b => a == b) 0 SessionState.new (.RName "/q") "" 0).2.1 = some 1
      ∧ (processReplies (Session.query (fun a b => a == b) 0 SessionState.new (.RName "/q") "" 0).1
            (Session.query (fun a b => a == b) 0 SessionState.new (.RName "/q") "" 0).2.1
            ([RData.mk 0 0 (.RName "/r") none [1]].map RData.toEvent ++ [.rfinal, .rfinal])).2
          = (processReplies (Session.query (fun a b => a == b) 0 SessionState.new (.RName "/q") "" 0).1
              (Session.query (fun a b => a == b) 0 SessionState.new (.RName "/q") "" 0).2.1
              ([RData.mk 0 0 (.RName "/r") none [1]].map RData.toEvent)).2
      ∧ alookup (processReplies (Session.query (fun a b => a == b) 0 SessionState.new (.RName "/q") "" 0).1
            (Session.query (fun a b => a == b) 0 SessionState.new (.RName "/q") "" 0).2.1
            ([RData.mk 0 0 (.RName "/r") none [1]].map RData.toEvent ++ [.rfinal, .rfinal])).1.queries
          (Session.query (fun a b => a == b) 0 SessionState.new (.RName "/q") "" 0).2.1 = none) := by
  have hres : ∀ d ∈ [RData.mk 0 0 (.RName "/r") none [1]],
      ∃ n, remotekey_to_resname SessionState.new d.reskey = .ok n := by
    intro d hd
    rw [List.mem_singleton] at hd
    subst hd
    exact ⟨"/r", rfl⟩
  exact ⟨hres, query_reply_lifecycle (fun a b => a == b) 0 SessionState.new
    (.RName "/q") "" 0 [RData.mk 0 0 (.RName "/r") none [1]] hres⟩

theorem stepP_queries_inv (intersect : String → String → Bool) (allKinds : Nat)
    (s : SessionState) (e : Event)
    (h : ∀ p ∈ s.queries, 1 ≤ p.2 ∧ p.2 ≤ 2) :
    ∀ p ∈ (stepP intersect allKinds s e).1.queries, 1 ≤ p.2 ∧ p.2 ≤ 2 := by
  cases e with
  | declareResource r =>
      intro p hp
      refine h p ?_
      rcases hm : localkey_to_resname
          { s with rid_counter := (s.rid_counter + 1) % USIZE_MOD } r
        with e2 | nm <;>
        simpa [stepP, declare_resource, hm] using hp
  | undeclareResource rid => intro p hp; exact h p (by simpa [stepP, undeclare_resource] using hp)
  | declarePublisher r => intro p hp; exact h p (by simpa [stepP, declare_publisher] using hp)
  | undeclarePublisher i r =>
      intro p hp
      refine h p ?_
      simp only [stepP, undeclare_publisher] at hp
      split at hp <;> simpa using hp
  | declareSubscriber r =>
      intro p hp
      refine h p ?_
      rcases hm : localkey_to_resname { s with decl_id_counter := s.decl_id_counter + 1 } r
        with e2 | nm <;>
        simpa [stepP, declare_subscriber, hm] using hp
  | undeclareSubscriber i r =>
      intro p hp
      refine h p ?_
      simp only [stepP, undeclare_subscriber] at hp
      split at hp <;> simpa using hp
  | declareCallbackSubscriber r =>
      intro p hp
      refine h p ?_
      rcases hm : localkey_to_resname { s with decl_id_counter := s.decl_id_counter + 1 } r
        with e2 | nm <;>
        simpa [stepP, declare_callback_subscriber, hm] using hp
  | undeclareCallbackSubscriber i r =>
      intro p hp
      refine h p ?_
      simp only [stepP, undeclare_callback_subscriber] at hp
      split at hp <;> simpa using hp
  | declareQueryable r k => intro p hp; exact h p (by simpa [stepP, declare_queryable] using hp)
  | undeclareQueryable i r =>
      intro p hp
      refine h p ?_
      simp only [stepP, undeclare_queryable] at hp
      split at hp <;> simpa using hp
  | writeData r pl => intro p hp; exact h p hp
  | sessionQuery r pred tk =>
      intro p hp
      have hp2 : p ∈ ainsert s.queries s.qid_counter 2 := by
        simpa [stepP, Session.query] using hp
      rcases List.mem_cons.mp hp2 with hp2a | hp2b
      · subst hp2a; exact ⟨by norm_num, by norm_num⟩
      · exact h p (mem_aerase_mem _ _ _ hp2b)
  | recvResource rid r =>
      intro p hp
      refine h p ?_
      rcases hm : remotekey_to_resname s r with e2 | nm <;>
        simpa [stepP, recv_resource, hm] using hp
  | recvData r info pl => intro p hp; exact h p hp
  | recvQuery r pred tk => intro p hp; exact h p hp
  | recvReplyData q sk rep r di pl => intro p hp; exact h p hp
  | recvReplyFinal qid =>
      intro p hp
      rcases hm : alookup s.queries qid with _ | n
      · exact h p (by simpa [stepP, reply_final, hm] using hp)
      · have hn := h (qid, n) (alookup_some_mem _ _ _ hm)
        simp only at hn
        have hn12 : n = 1 ∨ n = 2 := by omega
        rcases hn12 with hn1 | hn2
        · subst hn1
          have hp2 : p ∈ aerase s.queries qid := by
            simpa [stepP, reply_final, hm] using hp
          exact h p (mem_aerase_mem _ _ _ hp2)
        · subst hn2
          have hp2 : p ∈ ainsert s.queries qid 1 := by
            simpa [stepP, reply_final, hm] using hp
          rcases List.mem_cons.mp hp2 with hp2a | hp2b
          · subst hp2a; exact ⟨by norm_num, by norm_num⟩
          · exact h p (mem_aerase_mem _ _ _ hp2b)

theorem runPrims_queries_inv (intersect : String → String → Bool) (allKinds : Nat)
    (events : List Event) : ∀ s : SessionState,
    (∀ p ∈ s.queries, 1 ≤ p.2 ∧ p.2 ≤ 2) →
    ∀ p ∈ (runPrims intersect allKinds s events).1.queries, 1 ≤ p.2 ∧ p.2 ≤ 2 := by
  induction events with
  | nil => intro s h; simpa [runPrims] using h
  | cons e es ih =>
      intro s h
      have hstep : (runPrims intersect allKinds s (e :: es)).1 =
          (runPrims intersect allKinds (stepP intersect allKinds s e).1 es).1 := by
        simp [runPrims]
      rw [hstep]
      exact ih (stepP intersect allKinds s e).1 (stepP_queries_inv intersect allKinds s e h)

/-- Claim C10: in every session state reachable from `SessionState::new` by
any sequence of API and inbound events, every query-tracker entry has a
replier countdown in 1..2 — entries are inserted at 2 by `query()` and
removed by `reply_final` exactly when the countdown reaches 0 — so the
unguarded wrapping `u8` decrement in `reply_final` is never applied to a
zero countdown and cannot underflow. -/
theorem query_countdown_never_underflows (intersect : String → String → Bool)
    (allKinds : Nat) (events : List Event) (p : Nat × Nat)
    (hp : p ∈ (runPrims intersect allKinds SessionState.new events).1.queries) :
    1 ≤ p.2 ∧ p.2 ≤ 2 :=
  runPrims_queries_inv intersect allKinds events SessionState.new
    (by intro q hq; simp [SessionState.new] at hq) p hp

/-- Witness for `query_countdown_never_underflows`: after one `query()` the
tracker holds the entry (0, 2), whose countdown is within bounds. -/
theorem query_countdown_never_underflows_witness :
    ((0, 2) ∈ (runPrims (fun a b => a == b) 0 SessionState.new
        [.sessionQuery (.RName "/q") "" 0]).1.queries)
    ∧ (1 ≤ 2 ∧ 2 ≤ 2) :=
  ⟨by decide, query_countdown_never_underflows (fun a b => a == b) 0
    [.sessionQuery (.RName "/q") "" 0] (0, 2) (by decide)⟩

theorem countP_key_filter {α : Type} (l : List (Nat × α)) (g : Nat × α → Bool) :
    ∀ p : Nat × α, (l.map Prod.fst).Nodup → p ∈ l →
    (l.filter g).countP (fun q => decide (q.1 = p.1)) = if g p then 1 else 0 := by
  induction l with
  | nil => intro p _ hp; simp at hp
  | cons a t ih =>
      intro p hn hp
      rw [List.map_cons, List.nodup_cons] at hn
      obtain ⟨hna, hnt⟩ := hn
      have hzero : ∀ u : List (Nat × α), (∀ q ∈ u, q ∈ t) →
          u.countP (fun q => decide (q.1 = a.1)) = 0 := by
        intro u hu
        refine List.countP_eq_zero.mpr ?_
        intro q hq
        have : q.1 ∈ t.map Prod.fst := List.mem_map_of_mem Prod.fst (hu q hq)
        simp only [decide_eq_true_eq]
        intro he
        rw [he] at this
        exact hna this
      rcases List.mem_cons.mp hp with hpa | hpt
      · subst hpa
        by_cases hg : g p
        · rw [List.filter_cons_of_pos hg, List.countP_cons, if_pos hg,
            hzero (t.filter g) (fun q hq => List.mem_of_mem_filter hq)]
          simp
        · rw [List.filter_cons_of_neg hg, if_neg hg]
          exact hzero (t.filter g) (fun q hq => List.mem_of_mem_filter hq)
      · have hne : ¬ (a.1 = p.1) := by
          intro he
          have : p.1 ∈ t.map Prod.fst := List.mem_map_of_mem Prod.fst hpt
          rw [← he] at this
          exact hna this
        by_cases hg : g a
        · rw [List.filter_cons_of_pos hg, List.countP_cons]
          simp only [hne, decide_False, if_neg, ih p hnt hpt]
          simp
        · rw [List.filter_cons_of_neg hg]
          exact ih p hnt hpt

/-- Claim C3: when the incoming reskey resolves to name `N`, `handle_data`
delivers one sample per matching registration: each stream-subscriber and
each callback-subscriber registration receives the sample exactly once if
its resolved name intersects `N` and never otherwise (so a subscriber
registered twice on the same key receives two samples, one per
registration), and every delivered sample carries `res_name = N` and the
unmodified payload and metadata. -/
theorem handle_data_delivery (intersect : String → String → Bool) (s : SessionState)
    (loc : Bool) (reskey : ResKey) (info : Option DataInfo) (payload : RBuf)
    (N : String)
    (hres : reskey_to_resname s reskey loc = .ok N)
    (hnodup : (s.subscribers.map Prod.fst).Nodup)
    (hnodupcb : (s.callback_subscribers.map Prod.fst).Nodup) :
    (∀ p ∈ s.subscribers,
        (handle_data intersect s loc reskey info payload).2.countP
            (fun d => decide (d.1 = p.1)) =
          if intersect p.2.resname N then 1 else 0)
    ∧ (∀ d ∈ (handle_data intersect s loc reskey info payload).2,
        d.2 = Sample.mk N payload info)
    ∧ (∀ p ∈ s.callback_subscribers,
        (handle_data intersect s loc reskey info payload).1.countP
            (fun d => decide (d.1 = p.1)) =
          if intersect p.2.resname N then 1 else 0)
    ∧ (∀ d ∈ (handle_data intersect s loc reskey info payload).1,
        d.2 = Sample.mk N payload info) := by
  have hd : handle_data intersect s loc reskey info payload =
      ((s.callback_subscribers.filter fun p => intersect p.2.resname N).map
         (fun p => (p.1, Sample.mk N payload info)),
       (s.subscribers.filter fun p => intersect p.2.resname N).map
         (fun p => (p.1, Sample.mk N payload info))) := by
    rw [handle_data, hres]
  refine ⟨?_, ?_, ?_, ?_⟩
  · intro p hp
    rw [hd]
    simp only [List.countP_map]
    exact countP_key_filter s.subscribers _ p hnodup hp
  · intro d hd2
    rw [hd] at hd2
    obtain ⟨q, _, hq2⟩ := List.mem_map.mp hd2
    rw [← hq2]
  · intro p hp
    rw [hd]
    simp only [List.countP_map]
    exact countP_key_filter s.callback_subscribers _ p hnodupcb hp
  · intro d hd2
    rw [hd] at hd2
    obtain ⟨q, _, hq2⟩ := List.mem_map.mp hd2
    rw [← hq2]

/-- Witness for `handle_data_delivery`: two subscribers registered on the
same name and a third on another name; with equality as the intersection
function, the sample on "/a" reaches registrations 0 and 1 once each and
registration 2 never. -/
theorem handle_data_delivery_witness :
    (reskey_to_resname
        { SessionState.new with subscribers :=
            [(0, ⟨0, .RName "/a", "/a"⟩), (1, ⟨1, .RName "/a", "/a"⟩),
             (2, ⟨2, .RName "/b", "/b"⟩)] } (.RName "/a") true = .ok "/a")
    ∧ (∀ p ∈ ({ SessionState.new with subscribers :=
            [(0, ⟨0, .RName "/a", "/a"⟩), (1, ⟨1, .RName "/a", "/a"⟩),
             (2, ⟨2, .RName "/b", "/b"⟩)] } : SessionState).subscribers,
        (handle_data (fun a b => a == b)
            { SessionState.new with subscribers :=
                [(0, ⟨0, .RName "/a", "/a"⟩), (1, ⟨1, .RName "/a", "/a"⟩),
                 (2, ⟨2, .RName "/b", "/b"⟩)] } true (.RName "/a") none [7]).2.countP
            (fun d => decide (d.1 = p.1)) =
          if (fun a b => a == b) p.2.resname "/a" then 1 else 0) := by
  have h := handle_data_delivery (fun a b => a == b)
    { SessionState.new with subscribers :=
        [(0, ⟨0, .RName "/a", "/a"⟩), (1, ⟨1, .RName "/a", "/a"⟩),
         (2, ⟨2, .RName "/b", "/b"⟩)] } true (.RName "/a") none [7] "/a"
    rfl (by decide) (by decide)
  exact ⟨rfl, h.1⟩

/-- Claim C6: when the incoming query key resolves to name `N`,
`handle_query` delivers exactly one Query to a registered queryable iff its
own key resolves locally to a name intersecting `N` and its kind is
compatible with the target kind, compatibility being
`qkind == ALL_KINDS || tkind == ALL_KINDS || (qkind &&& tkind) != 0`;
never more than once per registration, and every delivered Query carries
the resolved name and the predicate. -/
theorem handle_query_delivery (intersect : String → String → Bool) (allKinds : Nat)
    (s : SessionState) (loc : Bool) (reskey : ResKey) (predicate : String)
    (tkind : Nat) (N : String)
    (hres : reskey_to_resname s reskey loc = .ok N)
    (hnodup : (s.queryables.map Prod.fst).Nodup) :
    (∀ p ∈ s.queryables,
        ((handle_query intersect allKinds s loc reskey predicate tkind).countP
            (fun d => decide (d.1 = p.1)) = 1 ↔
          ∃ qn, localkey_to_resname s p.2.reskey = .ok qn ∧ intersect qn N = true ∧
            kind_matches allKinds p.2.kind tkind = true))
    ∧ (∀ p ∈ s.queryables,
        (handle_query intersect allKinds s loc reskey predicate tkind).countP
            (fun d => decide (d.1 = p.1)) ≤ 1)
    ∧ (∀ d ∈ handle_query intersect allKinds s loc reskey predicate tkind,
        d.2.2 = QueryMsg.mk N predicate) := by
  have hq : handle_query intersect allKinds s loc reskey predicate tkind =
      ((s.queryables.filter fun p =>
          match localkey_to_resname s p.2.reskey with
          | .ok qablname =>
              intersect qablname N && kind_matches allKinds p.2.kind tkind
          | .error _ => false).map
        (fun p => (p.1, p.2.kind, QueryMsg.mk N predicate))) := by
    rw [handle_query, hres]
  have hcount : ∀ p ∈ s.queryables,
      (handle_query intersect allKinds s loc reskey predicate tkind).countP
          (fun d => decide (d.1 = p.1)) =
        if (match localkey_to_resname s p.2.reskey with
            | .ok qablname =>
                intersect qablname N && kind_matches allKinds p.2.kind tkind
            | .error _ => false) then 1 else 0 := by
    intro p hp
    rw [hq]
    simp only [List.countP_map]
    exact countP_key_filter s.queryables _ p hnodup hp
  refine ⟨?_, ?_, ?_⟩
  · intro p hp
    rw [hcount p hp]
    rcases hl : localkey_to_resname s p.2.reskey with e2 | qn
    · simp only [hl]
      refine iff_of_false (by simp) ?_
      rintro ⟨qn2, hq2, _, _⟩
      simp at hq2
    · simp only [hl]
      by_cases hb : intersect qn N && kind_matches allKinds p.2.kind tkind
      · rw [if_pos hb]
        rw [Bool.and_eq_true] at hb
        simp only [true_iff]
        exact ⟨qn, rfl, hb.1, hb.2⟩
      · rw [if_neg hb]
        rw [Bool.and_eq_true] at hb
        refine iff_of_false (by norm_num) ?_
        rintro ⟨qn2, hq2, hi2, hk2⟩
        injection hq2 with he
        subst he
        exact hb ⟨hi2, hk2⟩
  · intro p hp
    rw [hcount p hp]
    split <;> omega
  · intro d hd
    rw [hq] at hd
    obtain ⟨q, _, hq2⟩ := List.mem_map.mp hd
    rw [← hq2]

/-- Witness for `handle_query_delivery`: a queryable on the query's own
name with matching kind 1 against target kind 1, in a session that also
holds a non-matching queryable of kind 2; with equality as intersection,
exactly the first is selected. -/
theorem handle_query_delivery_witness :
    (reskey_to_resname
        { SessionState.new with queryables :=
            [(0, ⟨0, .RName "/q", 1⟩), (1, ⟨1, .RName "/q", 2⟩)] }
        (.RName "/q") true = .ok "/q")
    ∧ ((handle_query (fun a b => a == b) 0
          { SessionState.new with queryables :=
              [(0, ⟨0, .RName "/q", 1⟩), (1, ⟨1, .RName "/q", 2⟩)] }
          true (.RName "/q") "pred" 1).countP (fun d => decide (d.1 = 0)) = 1 ↔
        ∃ qn, localkey_to_resname
            { SessionState.new with queryables :=
                [(0, ⟨0, .RName "/q", 1⟩), (1, ⟨1, .RName "/q", 2⟩)] }
            (ResKey.RName "/q") = .ok qn ∧ ((fun a b => a == b) qn "/q") = true ∧
          kind_matches 0 1 1 = true) :=
  ⟨rfl,
   (handle_query_delivery (fun a b => a == b) 0
      { SessionState.new with queryables :=
          [(0, ⟨0, .RName "/q", 1⟩), (1, ⟨1, .RName "/q", 2⟩)] }
      true (.RName "/q") "pred" 1 "/q" rfl (by decide)).1
     (0, ⟨0, .RName "/q", 1⟩) (by decide)⟩

/-- Claim C5: `undeclare_subscriber` (and `undeclare_callback_subscriber`)
removes the registration with the handle's id and emits the outbound
`forget_subscriber(K)` if and only if, after the removal, no remaining
stream- or callback-subscriber registration shares the handle's ResKey;
concretely, after declaring two subscribers on "/k", undeclaring one emits
no forget and undeclaring the second emits exactly one. -/
theorem undeclare_forget_last (s : SessionState) (h : SubHandle) :
    ((undeclare_subscriber s h).1.subscribers = aerase s.subscribers h.id)
    ∧ (Prim.forget_subscriber h.reskey ∈ (undeclare_subscriber s h).2 ↔
        ((∀ p ∈ (undeclare_subscriber s h).1.callback_subscribers,
            p.2.reskey ≠ h.reskey)
         ∧ (∀ p ∈ (undeclare_subscriber s h).1.subscribers, p.2.reskey ≠ h.reskey)))
    ∧ ((undeclare_callback_subscriber s h).1.callback_subscribers =
        aerase s.callback_subscribers h.id)
    ∧ (Prim.forget_subscriber h.reskey ∈ (undeclare_callback_subscriber s h).2 ↔
        ((∀ p ∈ (undeclare_callback_subscriber s h).1.callback_subscribers,
            p.2.reskey ≠ h.reskey)
         ∧ (∀ p ∈ (undeclare_callback_subscriber s h).1.subscribers,
            p.2.reskey ≠ h.reskey)))
    ∧ ((runPrims (fun a b => a == b) 0 SessionState.new
          [.declareSubscriber (.RName "/k"), .declareSubscriber (.RName "/k"),
           .undeclareSubscriber 0 (.RName "/k")]).2.countP
          (fun q => decide (q = Prim.forget_subscriber (.RName "/k"))) = 0)
    ∧ ((runPrims (fun a b => a == b) 0 SessionState.new
          [.declareSubscriber (.RName "/k"), .declareSubscriber (.RName "/k"),
           .undeclareSubscriber 0 (.RName "/k"),
           .undeclareSubscriber 1 (.RName "/k")]).2.countP
          (fun q => decide (q = Prim.forget_subscriber (.RName "/k"))) = 1) := by
  have hsub : (undeclare_subscriber s h).1.subscribers = aerase s.subscribers h.id := by
    simp only [undeclare_subscriber]
    split <;> rfl
  have hscb : (undeclare_subscriber s h).1.callback_subscribers =
      s.callback_subscribers := by
    simp only [undeclare_subscriber]
    split <;> rfl
  have hccb : (undeclare_callback_subscriber s h).1.callback_subscribers =
      aerase s.callback_subscribers h.id := by
    simp only [undeclare_callback_subscriber]
    split <;> rfl
  have hcsub : (undeclare_callback_subscriber s h).1.subscribers = s.subscribers := by
    simp only [undeclare_callback_subscriber]
    split <;> rfl
  refine ⟨hsub, ?_, hccb, ?_, by decide, by decide⟩
  · rw [hscb, hsub]
    by_cases hc : ((!s.callback_subscribers.any fun p => p.2.reskey == h.reskey) &&
        !(aerase s.subscribers h.id).any fun p => p.2.reskey == h.reskey) = true
    · have hout : (undeclare_subscriber s h).2 = [Prim.forget_subscriber h.reskey] := by
        simp only [undeclare_subscriber]
        rw [if_pos hc]
      rw [hout]
      simp only [List.mem_singleton, true_iff, eq_self_iff_true]
      simp only [Bool.and_eq_true, Bool.not_eq_true', List.any_eq_false,
        beq_iff_eq] at hc
      exact ⟨fun p hp => hc.1 p hp, fun p hp => hc.2 p hp⟩
    · have hout : (undeclare_subscriber s h).2 = [] := by
        simp only [undeclare_subscriber]
        rw [if_neg hc]
      rw [hout]
      simp only [List.not_mem_nil, false_iff]
      intro hcon
      refine hc ?_
      simp only [Bool.and_eq_true, Bool.not_eq_true', List.any_eq_false, beq_iff_eq]
      exact ⟨fun p hp => hcon.1 p hp, fun p hp => hcon.2 p hp⟩
  · rw [hccb, hcsub]
    by_cases hc : ((!(aerase s.callback_subscribers h.id).any
        fun p => p.2.reskey == h.reskey) &&
        !s.subscribers.any fun p => p.2.reskey == h.reskey) = true
    · have hout : (undeclare_callback_subscriber s h).2 =
          [Prim.forget_subscriber h.reskey] := by
        simp only [undeclare_callback_subscriber]
        rw [if_pos hc]
      rw [hout]
      simp only [List.mem_singleton, true_iff, eq_self_iff_true]
      simp only [Bool.and_eq_true, Bool.not_eq_true', List.any_eq_false,
        beq_iff_eq] at hc
      exact ⟨fun p hp => hc.1 p hp, fun p hp => hc.2 p hp⟩
    · have hout : (undeclare_callback_subscriber s h).2 = [] := by
        simp only [undeclare_callback_subscriber]
        rw [if_neg hc]
      rw [hout]
      simp only [List.not_mem_nil, false_iff]
      intro hcon
      refine hc ?_
      simp only [Bool.and_eq_true, Bool.not_eq_true', List.any_eq_false, beq_iff_eq]
      exact ⟨fun p hp => hcon.1 p hp, fun p hp => hcon.2 p hp⟩

theorem map_fst_filter_key {α : Type} (q : Nat → Bool) (l : List (Nat × α)) :
    (l.filter (fun p => q p.1)).map Prod.fst = (l.map Prod.fst).filter q := by
  induction l with
  | nil => rfl
  | cons a t ih => by_cases hq : q a.1 <;> simp [List.filter_cons, hq, ih]

theorem filter_ne_eq_erase (l : List Nat) (a : Nat) (h : l.Nodup) :
    l.filter (fun k => decide (k ≠ a)) = l.erase a := by
  rw [h.erase_eq_filter]
  apply List.filter_congr
  intro x _
  by_cases hx : x = a
  · subst hx; simp
  · simp [hx]

theorem countP_replicate {α : Type} (p : α → Bool) (a : α) (n : Nat) :
    (List.replicate n a).countP p = if p a then n else 0 := by
  induction n with
  | zero => simp
  | succ m ih =>
      rw [List.replicate_succ, List.countP_cons, ih]
      by_cases hp : p a <;> simp [hp]

theorem Kkeys_aerase (K : ResKey) (l : List (Nat × SubscriberState)) (i : Nat) :
    ((aerase l i).filter (fun p => p.2.reskey == K)).map Prod.fst =
      ((l.filter (fun p => p.2.reskey == K)).map Prod.fst).filter
        (fun k => decide (k ≠ i)) := by
  rw [aerase, List.filter_filter, ← map_fst_filter_key, List.filter_filter]
  congr 1
  apply List.filter_congr
  intro x _
  exact Bool.and_comm _ _

theorem subsNew_snoc (K : ResKey) (r : String) (m c : Nat)
    (t : List (Nat × SubscriberState)) :
    subsNew (c + 1) m K r ++ (c, ⟨c, K, r⟩) :: t = subsNew c (m + 1) K r ++ t := by
  show subsNew (c + 1) m K r ++ (c, ⟨c, K, r⟩) :: t =
    (subsNew (c + 1) m K r ++ [(c, ⟨c, K, r⟩)]) ++ t
  rw [List.append_assoc]
  rfl

theorem subsNew_keys (K : ResKey) (r : String) : ∀ (n c : Nat),
    (subsNew c n K r).map Prod.fst = (List.range' c n).reverse := by
  intro n
  induction n with
  | zero => intro c; rfl
  | succ m ih =>
      intro c
      show (subsNew (c + 1) m K r ++ [((c, ⟨c, K, r⟩) : Nat × SubscriberState)]).map
          Prod.fst = _
      rw [List.map_append, ih (c + 1), List.range'_succ, List.reverse_cons]
      rfl

theorem subsNew_all_K (K : ResKey) (r : String) : ∀ (n c : Nat),
    ∀ p ∈ subsNew c n K r, p.2.reskey = K := by
  intro n
  induction n with
  | zero => intro c p hp; simp [subsNew] at hp
  | succ m ih =>
      intro c p hp
      rw [show subsNew c (m + 1) K r = subsNew (c + 1) m K r ++ [(c, ⟨c, K, r⟩)] from rfl,
        List.mem_append] at hp
      rcases hp with hp | hp
      · exact ih (c + 1) p hp
      · rw [List.mem_singleton] at hp
        subst hp
        rfl

theorem runPrims_append (intersect : String → String → Bool) (allKinds : Nat)
    (l1 l2 : List Event) : ∀ s : SessionState,
    runPrims intersect allKinds s (l1 ++ l2) =
      ((runPrims intersect allKinds (runPrims intersect allKinds s l1).1 l2).1,
       (runPrims intersect allKinds s l1).2 ++
         (runPrims intersect allKinds (runPrims intersect allKinds s l1).1 l2).2) := by
  induction l1 with
  | nil => intro s; simp [runPrims]
  | cons e t ih =>
      intro s
      simp only [List.cons_append, runPrims, List.append_eq, ih (stepP intersect allKinds s e).1,
        List.append_assoc]

theorem runPrims_cons (intersect : String → String → Bool) (allKinds : Nat)
    (s : SessionState) (e : Event) (es : List Event) :
    runPrims intersect allKinds s (e :: es) =
      ((runPrims intersect allKinds (stepP intersect allKinds s e).1 es).1,
       (stepP intersect allKinds s e).2 ++
         (runPrims intersect allKinds (stepP intersect allKinds s e).1 es).2) := by
  simp [runPrims]

theorem declTotal_zero (s : SessionState) (K : ResKey) (r : String) :
    declTotal s K r 0 = s := rfl

theorem declTotal_step (s : SessionState) (K : ResKey) (r : String) (m : Nat) :
    declTotal (declStep s K r) K r m = declTotal s K r (m + 1) := by
  simp only [declTotal, declStep]
  rw [subsNew_snoc]
  have h2 : s.decl_id_counter + 1 + m = s.decl_id_counter + (m + 1) := by omega
  rw [h2]

theorem declare_subscriber_fresh (s : SessionState) (K : ResKey) (r : String)
    (hres : localkey_to_resname s K = .ok r)
    (hfresh : ∀ p ∈ s.subscribers, p.1 < s.decl_id_counter) :
    stepP (fun a b => a == b) 0 s (.declareSubscriber K) =
      (declStep s K r, [Prim.subscriber K]) := by
  have herase : aerase s.subscribers s.decl_id_counter = s.subscribers :=
    aerase_of_keys_ne s.subscribers s.decl_id_counter
      (fun p hp => by have := hfresh p hp; omega)
  have hres1 : localkey_to_resname
      { s with decl_id_counter := s.decl_id_counter + 1 } K = .ok r := hres
  simp only [stepP, declare_subscriber, hres1, ainsert, herase, declStep]

theorem declare_phase (intersect : String → String → Bool) (allKinds : Nat)
    (K : ResKey) (r : String) : ∀ (n : Nat) (s : SessionState),
    localkey_to_resname s K = .ok r →
    (∀ p ∈ s.subscribers, p.1 < s.decl_id_counter) →
    runPrims intersect allKinds s (List.replicate n (.declareSubscriber K)) =
      (declTotal s K r n, List.replicate n (Prim.subscriber K)) := by
  intro n
  induction n with
  | zero => intro s _ _; rfl
  | succ m ih =>
      intro s hres hfresh
      have hres1 : localkey_to_resname
          { s with decl_id_counter := s.decl_id_counter + 1 } K = .ok r := hres
      have herase : aerase s.subscribers s.decl_id_counter = s.subscribers :=
        aerase_of_keys_ne s.subscribers s.decl_id_counter
          (fun p hp => by have := hfresh p hp; omega)
      have hstep : stepP intersect allKinds s (.declareSubscriber K) =
          (declStep s K r, [Prim.subscriber K]) := by
        simp only [stepP, declare_subscriber, hres1, ainsert, herase, declStep]
      have hresS : localkey_to_resname (declStep s K r) K = .ok r := hres
      have hfreshS : ∀ p ∈ (declStep s K r).subscribers,
          p.1 < (declStep s K r).decl_id_counter := by
        intro p hp
        rcases List.mem_cons.mp hp with hp | hp
        · subst hp
          show s.decl_id_counter < s.decl_id_counter + 1
          omega
        · have := hfresh p hp
          show p.1 < s.decl_id_counter + 1
          omega
      have hrec := ih (declStep s K r) hresS hfreshS
      rw [List.replicate_succ, runPrims_cons, hstep]
      simp only []
      rw [hrec, declTotal_step]
      rfl

theorem undeclare_phase (intersect : String → String → Bool) (allKinds : Nat) (K : ResKey) :
    ∀ (ids : List Nat) (s : SessionState),
    (∀ p ∈ s.callback_subscribers, p.2.reskey ≠ K) →
    ((s.subscribers.map Prod.fst).Nodup) →
    ids.Perm ((s.subscribers.filter fun p => p.2.reskey == K).map Prod.fst) →
    ((runPrims intersect allKinds s (ids.map fun i => .undeclareSubscriber i K)).2.countP
        (fun q => decide (q = Prim.forget_subscriber K)) =
      if ids.isEmpty then 0 else 1)
    ∧ ((runPrims intersect allKinds s (ids.map fun i => .undeclareSubscriber i K)).2.countP
        (fun q => decide (q = Prim.subscriber K)) = 0) := by
  intro ids
  induction ids with
  | nil => intro s _ _ _; exact ⟨rfl, rfl⟩
  | cons i rest ih =>
      intro s hcb hnodup hperm
      have hcbany : (s.callback_subscribers.any fun p => p.2.reskey == K) = false := by
        rw [List.any_eq_false]
        intro p hp
        simpa using hcb p hp
      have hKnodup : ((s.subscribers.filter fun p => p.2.reskey == K).map Prod.fst).Nodup :=
        hnodup.sublist ((List.filter_sublist _).map Prod.fst)
      have hK1 : ((aerase s.subscribers i).filter (fun p => p.2.reskey == K)).map Prod.fst =
          ((s.subscribers.filter fun p => p.2.reskey == K).map Prod.fst).erase i := by
        rw [Kkeys_aerase, filter_ne_eq_erase _ _ hKnodup]
      have hrest : rest.Perm (((s.subscribers.filter fun p => p.2.reskey == K).map
          Prod.fst).erase i) := by
        have h2 := hperm.erase i
        rw [List.erase_cons_head] at h2
        exact h2
      have hnodup1 : (((subErase s i).subscribers).map Prod.fst).Nodup := by
        show ((aerase s.subscribers i).map Prod.fst).Nodup
        exact hnodup.sublist ((List.filter_sublist _).map Prod.fst)
      have hcb1 : ∀ p ∈ (subErase s i).callback_subscribers, p.2.reskey ≠ K := hcb
      have hperm1 : rest.Perm ((((subErase s i).subscribers).filter fun p =>
          p.2.reskey == K).map Prod.fst) := by
        show rest.Perm (((aerase s.subscribers i).filter fun p =>
          p.2.reskey == K).map Prod.fst)
        rw [hK1]
        exact hrest
      have hrec := ih (subErase s i) hcb1 hnodup1 hperm1
      cases rest with
      | nil =>
          have hempty : ((s.subscribers.filter fun p => p.2.reskey == K).map
              Prod.fst).erase i = [] := hrest.symm.eq_nil
          have hfilnil : (aerase s.subscribers i).filter (fun p => p.2.reskey == K) = [] := by
            apply List.map_eq_nil_iff.mp
            rw [hK1]
            exact hempty
          have hanyf : ((aerase s.subscribers i).any fun p => p.2.reskey == K) = false := by
            rw [List.any_eq_false]
            intro p hp
            have := List.filter_eq_nil_iff.mp hfilnil p hp
            simpa using this
          have hcond : ((!s.callback_subscribers.any fun p => p.2.reskey == K) &&
              !((aerase s.subscribers i).any fun p => p.2.reskey == K)) = true := by
            rw [hcbany, hanyf]
            rfl
          have hstep : stepP intersect allKinds s (.undeclareSubscriber i K) =
              (subErase s i, [Prim.forget_subscriber K]) := by
            show undeclare_subscriber s ⟨i, K⟩ = _
            simp only [undeclare_subscriber, subErase]
            rw [if_pos hcond]
          refine ⟨?_, ?_⟩
          · rw [List.map_cons, List.map_nil, runPrims_cons, hstep]
            simp [runPrims]
          · rw [List.map_cons, List.map_nil, runPrims_cons, hstep]
            simp [runPrims]
      | cons j t =>
          have hjmem : j ∈ ((s.subscribers.filter fun p => p.2.reskey == K).map
              Prod.fst).erase i := hrest.mem_iff.mp (List.mem_cons_self j t)
          have hjK1 : j ∈ ((aerase s.subscribers i).filter fun p =>
              p.2.reskey == K).map Prod.fst := by
            rw [hK1]
            exact hjmem
          obtain ⟨p, hpmem, hpj⟩ := List.mem_map.mp hjK1
          have hpf := List.mem_filter.mp hpmem
          have hanyt : ((aerase s.subscribers i).any fun p => p.2.reskey == K) = true :=
            List.any_eq_true.mpr ⟨p, hpf.1, hpf.2⟩
          have hcond : ((!s.callback_subscribers.any fun p => p.2.reskey == K) &&
              !((aerase s.subscribers i).any fun p => p.2.reskey == K)) = false := by
            rw [hanyt]
            simp
          have hstep : stepP intersect allKinds s (.undeclareSubscriber i K) =
              (subErase s i, []) := by
            show undeclare_subscriber s ⟨i, K⟩ = _
            simp only [undeclare_subscriber, subErase]
            rw [if_neg (by rw [hcond]; simp)]
          refine ⟨?_, ?_⟩
          · rw [List.map_cons, runPrims_cons, hstep]
            simp only [List.nil_append]
            rw [hrec.1]
            rfl
          · rw [List.map_cons, runPrims_cons, hstep]
            simp only [List.nil_append]
            exact hrec.2

/-- Counterexample to claim C2 as stated: declaring two subscribers on the
identical key "/k" and then undeclaring both emits TWO outbound
`subscriber("/k")` calls, not one — `declare_subscriber` invokes the
outbound protocol declaration unconditionally on every call. -/
theorem redeclare_retriggers_subscriber :
    ((runPrims (fun a b => a == b) 0 SessionState.new
        [.declareSubscriber (.RName "/k"), .declareSubscriber (.RName "/k"),
         .undeclareSubscriber 0 (.RName "/k"),
         .undeclareSubscriber 1 (.RName "/k")]).2.countP
        (fun q => decide (q = Prim.subscriber (.RName "/k"))) = 2)
    ∧ ¬ ((runPrims (fun a b => a == b) 0 SessionState.new
        [.declareSubscriber (.RName "/k"), .declareSubscriber (.RName "/k"),
         .undeclareSubscriber 0 (.RName "/k"),
         .undeclareSubscriber 1 (.RName "/k")]).2.countP
        (fun q => decide (q = Prim.subscriber (.RName "/k"))) = 1) := by
  decide

/-- Claim C2 (amended): for N ≥ 1 `declare_subscriber` calls on the same
key K — resolving to `r`, from a state with no registration on K, fresh
distinct ids — followed by the N registrations being undeclared in any
order, every declare emits its own outbound `subscriber(K)` call (N in
total: re-declaring the same key DOES retrigger the protocol declaration),
while across the N undeclarations exactly one `forget_subscriber(K)` is
emitted, on the last removal. -/
theorem subscriber_declare_counts_forget_once (intersect : String → String → Bool)
    (allKinds : Nat) (s : SessionState) (K : ResKey) (r : String) (N : Nat)
    (ids : List Nat)
    (hres : localkey_to_resname s K = .ok r)
    (hN : 0 < N)
    (hnoK : ∀ p ∈ s.subscribers, p.2.reskey ≠ K)
    (hnoKcb : ∀ p ∈ s.callback_subscribers, p.2.reskey ≠ K)
    (hfresh : ∀ p ∈ s.subscribers, p.1 < s.decl_id_counter)
    (hnodup : (s.subscribers.map Prod.fst).Nodup)
    (hperm : ids.Perm (List.range' s.decl_id_counter N)) :
    ((runPrims intersect allKinds s (List.replicate N (.declareSubscriber K) ++
        ids.map fun i => .undeclareSubscriber i K)).2.countP
        (fun q => decide (q = Prim.subscriber K)) = N)
    ∧ ((runPrims intersect allKinds s (List.replicate N (.declareSubscriber K) ++
        ids.map fun i => .undeclareSubscriber i K)).2.countP
        (fun q => decide (q = Prim.forget_subscriber K)) = 1) := by
  have hdecl := declare_phase intersect allKinds K r N s hres hfresh
  have hkeys1 : ((declTotal s K r N).subscribers.map Prod.fst) =
      (List.range' s.decl_id_counter N).reverse ++ s.subscribers.map Prod.fst := by
    show ((subsNew s.decl_id_counter N K r ++ s.subscribers).map Prod.fst) = _
    rw [List.map_append, subsNew_keys]
  have hnodup1 : ((declTotal s K r N).subscribers.map Prod.fst).Nodup := by
    rw [hkeys1, List.nodup_append]
    refine ⟨List.nodup_reverse.mpr (List.nodup_range' _ _), hnodup, ?_⟩
    intro a ha hb
    rw [List.mem_reverse] at ha
    have h1 := (List.mem_range'_1.mp ha).1
    obtain ⟨p, hpmem, hpa⟩ := List.mem_map.mp hb
    have := hfresh p hpmem
    omega
  have hA : (subsNew s.decl_id_counter N K r).filter (fun p => p.2.reskey == K) =
      subsNew s.decl_id_counter N K r := by
    rw [List.filter_eq_self]
    intro p hp
    have := subsNew_all_K K r N s.decl_id_counter p hp
    simp [this]
  have hB : s.subscribers.filter (fun p => p.2.reskey == K) = [] := by
    rw [List.filter_eq_nil_iff]
    intro p hp
    simpa using hnoK p hp
  have hKfilter : ((declTotal s K r N).subscribers.filter fun p => p.2.reskey == K) =
      subsNew s.decl_id_counter N K r := by
    show ((subsNew s.decl_id_counter N K r ++ s.subscribers).filter fun p =>
      p.2.reskey == K) = _
    rw [List.filter_append, hA, hB, List.append_nil]
  have hperm1 : ids.Perm (((declTotal s K r N).subscribers.filter fun p =>
      p.2.reskey == K).map Prod.fst) := by
    rw [hKfilter, subsNew_keys]
    exact hperm.trans (List.reverse_perm _).symm
  have hcb1 : ∀ p ∈ (declTotal s K r N).callback_subscribers, p.2.reskey ≠ K := hnoKcb
  have hund := undeclare_phase intersect allKinds K ids (declTotal s K r N)
    hcb1 hnodup1 hperm1
  have hidsne : ids.isEmpty = false := by
    cases hid : ids with
    | nil =>
        exfalso
        rw [hid] at hperm
        have hlen := hperm.length_eq
        simp [List.length_range'] at hlen
        omega
    | cons a t => rfl
  refine ⟨?_, ?_⟩
  · rw [runPrims_append, hdecl]
    dsimp only
    rw [List.countP_append, countP_replicate, hund.2]
    simp
  · rw [runPrims_append, hdecl]
    dsimp only
    rw [List.countP_append, countP_replicate, hund.1, hidsne]
    simp

/-- Witness for `subscriber_declare_counts_forget_once`: two declares on
"/k" from a fresh session, undeclared in reverse order, emit two
subscriber("/k") calls and one forget_subscriber("/k"). -/
theorem subscriber_declare_counts_forget_once_witness :
    (List.Perm [1, 0] (List.range' SessionState.new.decl_id_counter 2))
    ∧ (0 < 2)
    ∧ (((runPrims (fun a b => a == b) 0 SessionState.new
          (List.replicate 2 (.declareSubscriber (.RName "/k")) ++
            [1, 0].map fun i => .undeclareSubscriber i (.RName "/k"))).2.countP
          (fun q => decide (q = Prim.subscriber (.RName "/k"))) = 2)
       ∧ ((runPrims (fun a b => a == b) 0 SessionState.new
            (List.replicate 2 (.declareSubscriber (.RName "/k")) ++
              [1, 0].map fun i => .undeclareSubscriber i (.RName "/k"))).2.countP
            (fun q => decide (q = Prim.forget_subscriber (.RName "/k"))) = 1)) :=
  ⟨by decide, by decide,
   subscriber_declare_counts_forget_once (fun a b => a == b) 0 SessionState.new
     (.RName "/k") "/k" 2 [1, 0] rfl (by decide) (by decide) (by decide) (by decide)
     (by decide) (by decide)⟩

end ZenohSpec
